import Mathlib

/-!
Verification of the Conversation & Variant Branching Engine of the
`juggler` frontend, as a shallow embedding of the reviewed TypeScript
sources (`src/frontend/src/ChatView.vue`, `src/frontend/src/stores/chatStore.ts`
and `src/frontend/src/services/api-security.service.ts`).

JavaScript arrays become `List`, strings become `String` (or, where
character-code arithmetic matters, `List Nat` of UTF-16 code units),
`Date` values become `Nat` timestamps, `undefined`-able fields become
`Option`, and every `await`ed network call becomes an explicit
`Except`-valued parameter carrying the response the call settled with.
Nondeterministic fresh identifiers (`Date.now()`, `generateId()`) are
passed in as parameters.  Async functions whose `try`/`catch` swallows
every error resolve in all paths; where a claim is about what the caller
observes, the embedding returns the resolved-or-rejected outcome
explicitly.
-/

/-- Message roles, as in the TS union `'user' | 'assistant' | 'system'`. -/
inductive Role where
  | user
  | assistant
  | system
deriving DecidableEq, Repr

/-- JavaScript `x || dflt` on an optional string: `undefined` and the
empty string are falsy. -/
def jsOr (o : Option String) (dflt : String) : String :=
  match o with
  | none => dflt
  | some s => if s = "" then dflt else s

/-- JavaScript truthiness filter for an optional string: `some ""` and
`none` are both falsy. -/
def strTruthy (o : Option String) : Option String :=
  match o with
  | some "" => none
  | x => x

/-- JavaScript `String.prototype.trim`: strip leading and trailing
whitespace.  (Defined over the character list so that it evaluates by
kernel reduction; `String.trim` of the core library is extensionally the
same but does not reduce.) -/
def jsTrim (s : String) : String :=
  ⟨((s.data.dropWhile Char.isWhitespace).reverse.dropWhile Char.isWhitespace).reverse⟩

namespace ChatView

/-- The `Message` interface of `ChatView.vue` (lines 351-359).
`is_active?: boolean` is optional, hence `Option Bool`. -/
structure Message where
  id : String
  role : Role
  content : String
  provider : Option String := none
  model : Option String := none
  timestamp : Nat
  is_active : Option Bool := none
deriving DecidableEq, Repr

/-- The `Variant` interface of `ChatView.vue` (lines 361-368). -/
structure Variant where
  id : String
  original_message_id : String
  content : String
  provider : String
  model : String
  is_canonical : Bool
deriving DecidableEq, Repr

/-- One entry of the `providers` record: `{available, models}`. -/
structure ProviderInfo where
  available : Bool
  models : List String
deriving DecidableEq, Repr

/-- The `rerunModal` ref (minus the presentational `x`/`y` coordinates).
The source field `show` is a Lean keyword and is embedded as `showFlag`. -/
structure RerunModal where
  showFlag : Bool := false
  messageId : String := ""
  provider : String := ""
  model : String := ""
  models : List String := []
deriving DecidableEq, Repr

/-- The reactive state of the `ChatView` component.  Purely
presentational refs (`messagesContainer`, `inputField`,
`conversationHistory`, the modal coordinates) are omitted. -/
structure ViewState where
  messages : List Message := []
  variants : List Variant := []
  inputMessage : String := ""
  isLoading : Bool := false
  conversationId : Option String := none
  providers : List (String × ProviderInfo) := []
  selectedProvider : String := ""
  availableModels : List String := []
  selectedModel : String := ""
  currentTitle : String := ""
  rerunModal : RerunModal := {}
deriving DecidableEq, Repr

/-- Key lookup in the `providers` record. -/
def lookupProvider (ps : List (String × ProviderInfo)) (k : String) : Option ProviderInfo :=
  (ps.find? (fun p => p.1 = k)).map (fun p => p.2)

/-- The active thread: the messages the template renders as current.
The template's predicate is `message.is_active !== false`
(`ChatView.vue` line 146). -/
def activeThread (s : ViewState) : List Message :=
  s.messages.filter (fun m => m.is_active ≠ some false)

/-- `getVariants` (line 404): the pool entries for one message. -/
def getVariants (s : ViewState) (messageId : String) : List Variant :=
  s.variants.filter (fun v => v.original_message_id = messageId)

/-- `loadLastUsedModel` (lines 684-697): `saved` is the parsed
`localStorage` map from provider name to last used model, `none` when
the key is absent or parsing threw. -/
def loadLastUsedModel (s : ViewState) (saved : Option (List (String × String))) : ViewState :=
  match saved with
  | none => s
  | some lastUsed =>
    if s.selectedProvider ≠ "" then
      match strTruthy ((lastUsed.find? (fun p => p.1 = s.selectedProvider)).map (fun p => p.2)) with
      | some m => if s.availableModels.contains m then { s with selectedModel := m } else s
      | none => s
    else s

/-- `onProviderChange` (lines 483-490): on a provider switch, expose its
models, pick `models[0] || ''`, then let the stored last-used model
override the default. -/
def onProviderChange (s : ViewState) (saved : Option (List (String × String))) : ViewState :=
  match lookupProvider s.providers s.selectedProvider with
  | none => s
  | some p =>
    if p.available then
      loadLastUsedModel
        { s with availableModels := p.models, selectedModel := p.models.headD "" } saved
    else s

/-- The payload of a successful `POST /api/chat/send` as consumed by
`sendMessage` (lines 513-537): `response.data`. -/
structure SendResponse where
  conversation_id : String
  message_id : String
  response : String
  variants : List Variant := []
deriving DecidableEq, Repr

/-- The user message pushed by `sendMessage` (lines 495-501): raw
`inputMessage`, no provider/model, active. -/
def mkUserMsg (s : ViewState) (uid : String) (t1 : Nat) : Message :=
  { id := uid, role := .user, content := s.inputMessage, timestamp := t1,
    is_active := some true }

/-- The error-turn message pushed in the `catch` branch of `sendMessage`
(lines 543-549): `[ERROR] ` followed by `error.response?.data?.detail ||
'Failed'`. -/
def mkErrMsg (detail : Option String) (eid : String) (t2 : Nat) : Message :=
  { id := eid, role := .assistant, content := "[ERROR] " ++ jsOr detail "Failed",
    timestamp := t2, is_active := some true }

/-- `sendMessage` of `ChatView.vue` (lines 492-555).  `r` is the outcome
the awaited `api.post('/api/chat/send', ...)` settled with: `.ok` carries
`response.data`, `.error` the extracted detail of the thrown error.
`uid`/`aid` are the `Date.now().toString()` ids and `t1`/`t2` the
`Date.now()` timestamps of the two pushes. -/
def sendMessage (s : ViewState) (r : Except (Option String) SendResponse)
    (uid aid : String) (t1 t2 : Nat) : ViewState :=
  if jsTrim s.inputMessage = "" ∨ s.selectedModel = "" then s
  else
    let s1 := { s with
      messages := s.messages ++ [mkUserMsg s uid t1],
      currentTitle := if s.currentTitle = "" then (s.inputMessage.take 30).toUpper
                      else s.currentTitle,
      inputMessage := "",
      isLoading := true }
    match r with
    | .ok resp =>
      let s2 := if s1.conversationId = none
                then { s1 with conversationId := some resp.conversation_id } else s1
      { s2 with
        messages := s2.messages ++
          [{ id := resp.message_id, role := .assistant, content := resp.response,
             provider := some s.selectedProvider, model := some s.selectedModel,
             timestamp := t2, is_active := some true }],
        variants := s2.variants ++ resp.variants,
        isLoading := false }
    | .error detail =>
      { s1 with messages := s1.messages ++ [mkErrMsg detail aid t2],
                isLoading := false }

/-- `rerunMessage` (lines 584-606).  `r` is the outcome of the awaited
`api.post('/api/chat/rerun', ...)`: `.ok` carries the optional
`response.data.variant`, `.error` the thrown error's message.  The
second component is what the caller of the async function observes: the
`catch` block swallows every error, so the promise resolves (`.ok ()`)
in all paths. -/
def rerunMessage (s : ViewState) (model : String)
    (r : Except String (Option Variant)) : ViewState × Except String Unit :=
  let _ := model   -- sent in the request body only
  let s1 := { s with rerunModal := { s.rerunModal with showFlag := false },
                     isLoading := true }
  match r with
  | .ok ov =>
    ({ s1 with
       variants := s1.variants ++ (match ov with | some v => [v] | none => []),
       isLoading := false }, .ok ())
  | .error _ => ({ s1 with isLoading := false }, .ok ())

/-- The `new_message` object of a `POST /api/chat/variants/select`
response, as read by `selectVariant` (lines 618-628). -/
structure NewMessagePayload where
  id : String
  role : Role
  content : String
  provider : Option String := none
  model : Option String := none
  timestamp : Nat
deriving DecidableEq, Repr

/-- `response.data` of `POST /api/chat/variants/select`. -/
structure SelectResponse where
  new_message : Option NewMessagePayload
  deactivated_message_id : Option String
deriving DecidableEq, Repr

/-- The message the client builds from `response.data.new_message`
(lines 619-627): pushed with `is_active: true`. -/
def payloadMessage (p : NewMessagePayload) : Message :=
  { id := p.id, role := p.role, content := p.content, provider := p.provider,
    model := p.model, timestamp := p.timestamp, is_active := some true }

/-- `messages.value.find(m => m.id === id)` followed by the in-place
mutation `originalMsg.is_active = false` (lines 632-635): flips the
first message with the given id. -/
def setInactiveFirst (l : List Message) (i : String) : List Message :=
  match l with
  | [] => []
  | m :: rest =>
    if m.id = i then { m with is_active := some false } :: rest
    else m :: setInactiveFirst rest i

/-- `selectVariant` (lines 608-648).  On success: push the new message,
flip the original's `is_active`, drop every variant of `messageId`.  The
`catch` block swallows errors, so the returned promise resolves
(`.ok ()`) in all paths. -/
def selectVariant (s : ViewState) (variantId messageId : String)
    (r : Except String SelectResponse) : ViewState × Except String Unit :=
  let _ := variantId   -- sent in the request body only
  match r with
  | .error _ => ({ s with isLoading := false }, .ok ())
  | .ok resp =>
    let s1 := match resp.new_message with
      | some p => { s with messages := s.messages ++ [payloadMessage p] }
      | none => s
    let s2 := match strTruthy resp.deactivated_message_id with
      | some i => { s1 with messages := setInactiveFirst s1.messages i }
      | none => s1
    ({ s2 with
       variants := s2.variants.filter (fun v => v.original_message_id ≠ messageId),
       isLoading := false }, .ok ())

/-- Modelled from the spec: the backend handler of
`POST /api/chat/variants/select` is not part of the reviewed tree (only
its caller `selectVariant` in `ChatView.vue` is).  Per the spec, section
4.3, committing a variant appends "a new assistant Message with the
variant's content/provider/model, `isActive=true`" and returns
`{newMessageId, deactivatedMessageId}`; the wire response hands the
client the new message and the deactivated id. -/
def selectVariantBackend (v : Variant) (originalMessageId newId : String)
    (ts : Nat) : SelectResponse :=
  { new_message := some
      { id := newId, role := .assistant, content := v.content,
        provider := some v.provider, model := some v.model, timestamp := ts },
    deactivated_message_id := some originalMessageId }

/-- The message the client ends up appending when the backend commits
variant `v`: the assistant message carrying exactly the variant's
content, provider and model, active. -/
def committedMessage (v : Variant) (newId : String) (ts : Nat) : Message :=
  payloadMessage
    { id := newId, role := .assistant, content := v.content,
      provider := some v.provider, model := some v.model, timestamp := ts }

end ChatView

namespace Store

/-- The `ChatMessage` interface of `chatStore.ts` (lines 8-18). -/
structure ChatMessage where
  id : String
  role : Role
  content : String
  timestamp : Nat
  provider : Option String := none
  model : Option String := none
  latency : Option Nat := none
  tokens : Option Nat := none
  error : Option Bool := none
deriving DecidableEq, Repr

/-- The `ChatSession` interface of `chatStore.ts` (lines 20-28). -/
structure ChatSession where
  id : String
  title : String
  messages : List ChatMessage := []
  createdAt : Nat
  updatedAt : Nat
  provider : Option String := none
  model : Option String := none
deriving DecidableEq, Repr

/-- One provider of the `ProvidersStatus` record: `{name, available, models}`. -/
structure ProviderState where
  name : String
  available : Bool
  models : List String
deriving DecidableEq, Repr

/-- `ProvidersStatus`: the record mapping provider names to their state,
embedded as an association list in `Object.entries` order. -/
def ProvidersStatus := List (String × ProviderState)
deriving DecidableEq

/-- The state of the pinia chat store. -/
structure StoreState where
  sessions : List ChatSession := []
  currentSessionId : Option String := none
  providers : Option ProvidersStatus := none
  isLoading : Bool := false
  error : Option String := none
  currentProvider : String := "ollama"
  currentModel : String := "llama3:8b"
  isInitialized : Bool := false
deriving DecidableEq

/-- The `currentSession` computed (lines 42-45): the first session whose
id matches `currentSessionId`. -/
def currentSession (s : StoreState) : Option ChatSession :=
  match s.currentSessionId with
  | none => none
  | some i => s.sessions.find? (fun c => c.id = i)

/-- `providers.value?.[provider]` key access. -/
def providersLookup (o : Option ProvidersStatus) (k : String) : Option ProviderState :=
  match o with
  | none => none
  | some ps => (ps.find? (fun p => p.1 = k)).map (fun p => p.2)

/-- The `availableProviders` computed (lines 47-62) applied to a
concrete catalog: the available entries as `{name, models}` pairs. -/
def availableProvidersOf (ps : ProvidersStatus) : List (String × List String) :=
  (ps.filter (fun p => p.2.available)).map (fun p => (p.1, p.2.models))

/-- `sessions.value.find(s => s.id === i)` followed by in-place mutation
of the found session: update the first session with the given id. -/
def updateFirstSession (l : List ChatSession) (i : String)
    (f : ChatSession → ChatSession) : List ChatSession :=
  match l with
  | [] => []
  | c :: rest => if c.id = i then f c :: rest else c :: updateFirstSession rest i f

/-- `createNewSession` (lines 122-138): unshift a fresh session and make
it current.  `newId` stands for `generateId()` and `now` for
`new Date()`. -/
def createNewSession (s : StoreState) (newId : String) (now : Nat) : StoreState :=
  let newSession : ChatSession :=
    { id := newId, title := "Chat " ++ toString (s.sessions.length + 1),
      messages := [], createdAt := now, updatedAt := now,
      provider := some s.currentProvider, model := some s.currentModel }
  { s with sessions := newSession :: s.sessions, currentSessionId := some newId }

/-- The user message `sendMessage` pushes (lines 144-153): trimmed
content, current provider/model. -/
def mkStoreUserMsg (s : StoreState) (content uid : String) (t1 : Nat) : ChatMessage :=
  { id := uid, role := .user, content := jsTrim content, timestamp := t1,
    provider := some s.currentProvider, model := some s.currentModel }

/-- The title set after the first exchange (line 185):
`content.slice(0, 50)` plus an ellipsis for longer inputs. -/
def titleOf (content : String) : String :=
  content.take 50 ++ (if content.length > 50 then "..." else "")

/-- The synchronous part of `sendMessage` (lines 140-158), up to the
awaited `apiInstance.sendMessage`: the guard, the user-message push and
the loading flags.  Returns the new state and whether the call proceeded
past the guard (`false` = silent early `return`). -/
def sendMessagePre (s : StoreState) (content uid : String) (t1 : Nat) :
    StoreState × Bool :=
  if jsTrim content = "" then (s, false)
  else match currentSession s with
    | none => (s, false)
    | some cur =>
      ({ s with
         sessions := updateFirstSession s.sessions cur.id
           (fun c => { c with messages := c.messages ++ [mkStoreUserMsg s content uid t1] }),
         isLoading := true, error := none }, true)

/-- The payload of a successful `apiInstance.sendMessage` call as read
in lines 169-178. -/
structure SendApiResponse where
  response : String
  provider : String
  model : String
  timestamp : Nat
  latency : Option Nat := none
  tokens : Option Nat := none
deriving DecidableEq, Repr

/-- The continuation of `sendMessage` after the awaited call settles
(lines 160-208): on success push the assistant message, bump
`updatedAt`, retitle after the first exchange; on failure push an error
message and record the error.  `aid` stands for the `generateId()` of
the pushed message and `t2` for `new Date()`. -/
def sendMessageRes (s : StoreState) (content : String)
    (r : Except (Option String) SendApiResponse) (aid : String) (t2 : Nat) : StoreState :=
  match currentSession s with
  | none => { s with isLoading := false }
  | some cur =>
    match r with
    | .ok resp =>
      let aMsg : ChatMessage :=
        { id := aid, role := .assistant, content := resp.response,
          timestamp := resp.timestamp, provider := some resp.provider,
          model := some resp.model, latency := resp.latency, tokens := resp.tokens }
      { s with
        sessions := updateFirstSession s.sessions cur.id (fun c =>
          let c1 := { c with messages := c.messages ++ [aMsg], updatedAt := t2 }
          if c1.messages.length = 2 then { c1 with title := titleOf content } else c1),
        isLoading := false }
    | .error e =>
      let eMsg : ChatMessage :=
        { id := aid, role := .assistant,
          content := "Error: " ++ jsOr e "Failed to get response",
          timestamp := t2, provider := some s.currentProvider,
          model := some s.currentModel, error := some true }
      { s with
        sessions := updateFirstSession s.sessions cur.id
          (fun c => { c with messages := c.messages ++ [eMsg] }),
        error := some (jsOr e "Failed to send message"),
        isLoading := false }

/-- `sendMessage` (lines 140-209) run to completion with the awaited
call settling as `r`, and no interleaved store mutation during the
await. -/
def sendMessage (s : StoreState) (content : String)
    (r : Except (Option String) SendApiResponse) (uid aid : String) (t1 t2 : Nat) :
    StoreState :=
  let p := sendMessagePre s content uid t1
  if p.2 then sendMessageRes p.1 content r aid t2 else p.1

/-- `switchProvider` (lines 211-230): set the provider; take the given
model when truthy, otherwise default to `models[0]` of the provider's
catalog entry when that list is non-empty; mirror the choice into the
current session. -/
def switchProvider (s : StoreState) (provider : String) (model : Option String) :
    StoreState :=
  let s1 := { s with currentProvider := provider }
  let s2 := match strTruthy model with
    | some m => { s1 with currentModel := m }
    | none =>
      match providersLookup s.providers provider with
      | some pd =>
        if pd.models.length > 0 then { s1 with currentModel := pd.models.headD "" }
        else s1
      | none => s1
  match currentSession s2 with
  | none => s2
  | some cur =>
    { s2 with sessions := (updateFirstSession s2.sessions cur.id
        (fun c => { c with provider := some provider, model := some s2.currentModel })) }

/-- `switchSession` (lines 232-244): make the found session current and
adopt its provider/model when truthy (`if (session.provider) ...`). -/
def switchSession (s : StoreState) (sessionId : String) : StoreState :=
  match s.sessions.find? (fun c => c.id = sessionId) with
  | none => s
  | some sess =>
    { s with currentSessionId := some sessionId,
             currentProvider := (strTruthy sess.provider).getD s.currentProvider,
             currentModel := (strTruthy sess.model).getD s.currentModel }

/-- `splice(index, 1)` at `findIndex(c => c.id === i)`: remove the first
session with the given id. -/
def removeFirstSession (l : List ChatSession) (i : String) : List ChatSession :=
  match l with
  | [] => []
  | c :: rest => if c.id = i then rest else c :: removeFirstSession rest i

/-- `deleteSession` (lines 246-262): remove the session; when it was the
current one, repoint to the first remaining session, or create a fresh
one when none remains (`newId`/`now` feed that `createNewSession`). -/
def deleteSession (s : StoreState) (sessionId newId : String) (now : Nat) : StoreState :=
  if s.sessions.any (fun c => c.id = sessionId) then
    let s1 := { s with sessions := removeFirstSession s.sessions sessionId }
    if s.currentSessionId = some sessionId then
      match s1.sessions with
      | c :: _ => { s1 with currentSessionId := some c.id }
      | [] => createNewSession s1 newId now
    else s1
  else s

/-- The object serialized into `localStorage` by `saveSessionsToStorage`
(lines 321-337). -/
structure StoredData where
  sessions : List ChatSession
  currentSessionId : Option String
  currentProvider : String
  currentModel : String
deriving DecidableEq

/-- `saveSessionsToStorage` (lines 321-337): each session is stored with
`messages.slice(-100)` — only the last 100 messages survive. -/
def saveSessionsToStorage (s : StoreState) : StoredData :=
  { sessions := s.sessions.map
      (fun c => { c with messages := c.messages.drop (c.messages.length - 100) }),
    currentSessionId := s.currentSessionId,
    currentProvider := s.currentProvider,
    currentModel := s.currentModel }

/-- `loadSessionsFromStorage` (lines 339-370): `saved` is the parsed
`localStorage` blob, `none` when the key is absent.  Timestamps are
`Nat`, so the string-to-`Date` conversion of the source is the identity
here. -/
def loadSessionsFromStorage (s : StoreState) (saved : Option StoredData) : StoreState :=
  match saved with
  | none => s
  | some d =>
    let s1 := { s with sessions := d.sessions }
    let s2 := match strTruthy d.currentSessionId with
      | some i => { s1 with currentSessionId := some i }
      | none => s1
    let s3 := if d.currentProvider ≠ "" then { s2 with currentProvider := d.currentProvider }
              else s2
    if d.currentModel ≠ "" then { s3 with currentModel := d.currentModel } else s3

/-- `loadProviders` (lines 98-120): `r` is how `apiInstance.getProviders`
settled.  On success, record the catalog and default to the first
available provider and its `models[0] || ''`; on failure, record an
error message and an all-unavailable default catalog. -/
def loadProviders (s : StoreState) (r : Except Unit ProvidersStatus) : StoreState :=
  match r with
  | .ok data =>
    let s1 := { s with providers := some data }
    match (availableProvidersOf data).head? with
    | some p => { s1 with currentProvider := p.1, currentModel := p.2.headD "" }
    | none => s1
  | .error _ =>
    { s with error := some "Could not load AI providers",
             providers := some
               [("ollama", ⟨"ollama", false, []⟩),
                ("groq", ⟨"groq", false, []⟩),
                ("gemini", ⟨"gemini", false, []⟩)] }

/-- The store's `initialize` action (lines 69-96; `initialize` is a Lean
keyword, hence the name).  Load providers, load stored sessions, then
ensure a current session exists: create one when the list is empty,
otherwise point at the first. -/
def initStore (s : StoreState) (provs : Except Unit ProvidersStatus)
    (saved : Option StoredData) (newId : String) (now : Nat) : StoreState :=
  if s.isInitialized then s
  else
    let s1 := loadProviders { s with isLoading := true, error := none } provs
    let s2 := loadSessionsFromStorage s1 saved
    let s3 := match s2.sessions with
      | [] => createNewSession s2 newId now
      | c :: _ => { s2 with currentSessionId := some c.id }
    { s3 with isInitialized := true, isLoading := false }

/-- The invariant of claim C9: `currentSessionId` is `null` or names a
session present in `sessions`. -/
def sessionIdOk (s : StoreState) : Prop :=
  match s.currentSessionId with
  | none => True
  | some i => s.sessions.any (fun c => c.id = i) = true

instance (s : StoreState) : Decidable (sessionIdOk s) := by
  unfold sessionIdOk
  cases s.currentSessionId <;> infer_instance

end Store

namespace Sec

/-!
Embedding of `encryptData`/`decryptData` of
`api-security.service.ts` (lines 140-173).  JavaScript strings are
`List Nat` of UTF-16 code units (`charCodeAt`/`fromCharCode` work on
code units).  The browser builtins `btoa`/`atob` are modelled by a
concrete standard base64 codec: `btoa` throws (here: `none`, turned into
`''` by the service's `catch`) when any code unit exceeds 255; `atob` is
modelled on the padded output `btoa` produces, which is the only shape
the service ever feeds back to it in the properties proved here.
-/

/-- The base64 alphabet. -/
def base64Chars : List Char :=
  "ABCDEFGHIJKLMNOPQRSTUVWXYZabcdefghijklmnopqrstuvwxyz0123456789+/".toList

/-- Sextet to base64 digit. -/
def sextetChar (n : Nat) : Char := base64Chars.getD n 'A'

/-- Base64 digit back to its sextet. -/
def charSextet (c : Char) : Nat := base64Chars.indexOf c

/-- Base64 encoding of a byte list, with `=` padding. -/
def b64encode : List Nat → List Char
  | [] => []
  | [a] => [sextetChar (a / 4), sextetChar (a % 4 * 16), '=', '=']
  | [a, b] => [sextetChar (a / 4), sextetChar (a % 4 * 16 + b / 16),
               sextetChar (b % 16 * 4), '=']
  | a :: b :: c :: rest =>
    sextetChar (a / 4) :: sextetChar (a % 4 * 16 + b / 16) ::
    sextetChar (b % 16 * 4 + c / 64) :: sextetChar (c % 64) :: b64encode rest

/-- Base64 decoding of padded input (the shape `b64encode` emits). -/
def b64decode : List Char → List Nat
  | c1 :: c2 :: c3 :: c4 :: rest =>
    if c3 = '=' then [charSextet c1 * 4 + charSextet c2 / 16]
    else if c4 = '=' then
      [charSextet c1 * 4 + charSextet c2 / 16,
       charSextet c2 % 16 * 16 + charSextet c3 / 4]
    else
      (charSextet c1 * 4 + charSextet c2 / 16) ::
      (charSextet c2 % 16 * 16 + charSextet c3 / 4) ::
      (charSextet c3 % 4 * 64 + charSextet c4) :: b64decode rest
  | _ => []

/-- `btoa`: fails (`InvalidCharacterError`) when a code unit exceeds 255. -/
def btoa (l : List Nat) : Option (List Char) :=
  if l.all (fun x => x ≤ 255) then some (b64encode l) else none

/-- `data.split('').map((char, i) => fromCharCode(charCodeAt ^
key.charCodeAt(i % key.length))).join('')`, with the running index made
explicit. -/
def xorKey (key : List Nat) : Nat → List Nat → List Nat
  | _, [] => []
  | i, c :: rest => (c ^^^ key.getD (i % key.length) 0) :: xorKey key (i + 1) rest

/-- `encryptData` (lines 140-155): guard on empty data/key, XOR with the
cyclic key, base64; the `catch` turns a `btoa` throw into `''`. -/
def encryptData (data key : List Nat) : List Char :=
  if data = [] ∨ key = [] then []
  else
    match btoa (xorKey key 0 data) with
    | some s => s
    | none => []

/-- `decryptData` (lines 160-173): guard on empty input/key, base64
decode, XOR with the cyclic key. -/
def decryptData (enc : List Char) (key : List Nat) : List Nat :=
  if enc = [] ∨ key = [] then []
  else xorKey key 0 (b64decode enc)

end Sec

namespace Fix

/-- A committed user turn, used as concrete input for witnesses. -/
def u1 : ChatView.Message :=
  { id := "u1", role := .user, content := "hi", timestamp := 1, is_active := some true }

/-- A committed assistant turn under review. -/
def a1 : ChatView.Message :=
  { id := "a1", role := .assistant, content := "old answer", provider := some "ollama",
    model := some "llama3:8b", timestamp := 2, is_active := some true }

/-- An uncommitted variant for `a1`. -/
def v1 : ChatView.Variant :=
  { id := "v1", original_message_id := "a1", content := "alt answer", provider := "groq",
    model := "llama-3.1-8b-instant", is_canonical := false }

/-- A view state holding one user turn, one assistant turn and one
pending variant. -/
def viewSt : ChatView.ViewState :=
  { messages := [u1, a1], variants := [v1], inputMessage := "next question",
    selectedProvider := "ollama", selectedModel := "llama3:8b" }

/-- A view state whose selected provider exposes no models. -/
def emptyModelsSt : ChatView.ViewState :=
  { providers := [("ollama", { available := true, models := [] })],
    selectedProvider := "ollama", selectedModel := "llama3:8b",
    availableModels := ["llama3:8b"] }

/-- A store session used as concrete input for witnesses. -/
def sess1 : Store.ChatSession :=
  { id := "s1", title := "Chat 1", messages := [], createdAt := 1, updatedAt := 1,
    provider := some "ollama", model := some "llama3:8b" }

/-- A store state with one session, current, and a first `sendMessage`
already in flight (`isLoading = true`). -/
def busySt : Store.StoreState :=
  { sessions := [sess1], currentSessionId := some "s1", isLoading := true }

/-- A store state whose current provider is not in the catalog and whose
sole catalog entry is unavailable. -/
def ghostSt : Store.StoreState :=
  { sessions := [sess1], currentSessionId := some "s1",
    providers := some [("ollama", ⟨"ollama", false, []⟩)],
    currentProvider := "ghost", currentModel := "m0" }

/-- A store state with one current session, used for C9's witness. -/
def storeSt : Store.StoreState :=
  { sessions := [sess1], currentSessionId := some "s1" }

/-- A store catalog entry whose model list is empty. -/
def bareCatalog : Store.ProvidersStatus := [("groq", ⟨"groq", true, []⟩)]

/-- A view state whose selected provider exposes two models. -/
def modelsSt : ChatView.ViewState :=
  { providers := [("ollama", { available := true, models := ["llama3:8b", "llama2"] })],
    selectedProvider := "ollama" }

end Fix

/-! ## Helper lemmas -/

theorem strTruthy_of_ne (x : String) (h : x ≠ "") : strTruthy (some x) = some x := by
  unfold strTruthy
  split
  · rename_i heq
    cases heq
    exact absurd rfl h
  · rfl

theorem rerunMessage_fst_messages (s : ChatView.ViewState) (model : String)
    (r : Except String (Option ChatView.Variant)) :
    ((ChatView.rerunMessage s model r).1).messages = s.messages := by
  unfold ChatView.rerunMessage
  cases r <;> rfl

theorem rerunMessage_fst_variants (s : ChatView.ViewState) (model : String)
    (r : Except String (Option ChatView.Variant)) :
    ∃ t, ((ChatView.rerunMessage s model r).1).variants = s.variants ++ t := by
  unfold ChatView.rerunMessage
  cases r with
  | error e => exact ⟨[], by simp⟩
  | ok ov => exact ⟨_, rfl⟩

/-! ## C2: rerun never disturbs the committed thread -/

/-- C2: for every view state and every finite sequence of rerun calls
(each settling with an arbitrary success or failure outcome, with no
variant selection in between), the messages list — and hence the active
thread — is identical before and after the sequence, and the variant
pool has only been appended to. -/
theorem rerun_preserves_messages (s : ChatView.ViewState)
    (calls : List (String × Except String (Option ChatView.Variant))) :
    ((calls.foldl (fun st c => (ChatView.rerunMessage st c.1 c.2).1) s).messages = s.messages)
    ∧ ChatView.activeThread (calls.foldl (fun st c => (ChatView.rerunMessage st c.1 c.2).1) s)
        = ChatView.activeThread s
    ∧ ∃ t, (calls.foldl (fun st c => (ChatView.rerunMessage st c.1 c.2).1) s).variants
        = s.variants ++ t := by
  induction calls generalizing s with
  | nil => exact ⟨rfl, rfl, [], by simp⟩
  | cons c cs ih =>
    obtain ⟨h1, h2, t2, h3⟩ := ih ((ChatView.rerunMessage s c.1 c.2).1)
    refine ⟨?_, ?_, ?_⟩
    · simp only [List.foldl_cons]
      rw [h1, rerunMessage_fst_messages]
    · simp only [List.foldl_cons]
      unfold ChatView.activeThread
      rw [h1, rerunMessage_fst_messages]
    · obtain ⟨t1, h4⟩ := rerunMessage_fst_variants s c.1 c.2
      exact ⟨t1 ++ t2, by simp only [List.foldl_cons]; rw [h3, h4, List.append_assoc]⟩

/-! ## C6: failed reruns record nothing, but the error is swallowed -/

/-- C6 counterexample: a rerun whose inference call fails resolves
normally — the promise the caller awaits settles with `.ok ()`, never
with the error; `selectVariant` behaves the same.  This refutes "the
error is returned to the caller rather than silently swallowed": both
`catch` blocks only log. -/
theorem rerun_error_not_surfaced_cex :
    (ChatView.rerunMessage {} "llama3:8b" (.error "ProviderUnavailable")).2 = Except.ok ()
    ∧ (¬ ∃ e, (ChatView.rerunMessage {} "llama3:8b" (.error "ProviderUnavailable")).2
          = Except.error e)
    ∧ ((ChatView.rerunMessage {} "llama3:8b" (.error "ProviderUnavailable")).1).variants = []
    ∧ (ChatView.selectVariant {} "v1" "a1" (.error "ProviderUnavailable")).2 = Except.ok ()
    ∧ (¬ ∃ e, (ChatView.selectVariant {} "v1" "a1" (.error "ProviderUnavailable")).2
          = Except.error e) := by
  refine ⟨rfl, ?_, rfl, rfl, ?_⟩
  · rintro ⟨e, h⟩
    simp [ChatView.rerunMessage] at h
  · rintro ⟨e, h⟩
    simp [ChatView.selectVariant] at h

/-- C6 amended: a rerun whose inference call fails records no variant
and leaves the messages list untouched, but the error is only logged,
not returned: `rerunMessage` and `selectVariant` catch every error and
resolve with `.ok ()`, so the caller observes no failure. -/
theorem rerun_select_failure_behavior (s : ChatView.ViewState)
    (model e variantId messageId e' : String) :
    ChatView.rerunMessage s model (.error e)
      = ({ s with rerunModal := { s.rerunModal with showFlag := false },
                  isLoading := false }, .ok ())
    ∧ ChatView.selectVariant s variantId messageId (.error e')
      = ({ s with isLoading := false }, .ok ()) :=
  ⟨rfl, rfl⟩

/-! ## C3: a failed turn submission materializes an error turn -/

/-- C3: when the inference call behind a turn submission fails, the view
appends the user message and then an active assistant error-turn message
whose content holds the human-readable error summary; the active thread
is the old one followed by exactly those two messages (so it grows by 2
and has no gap after the last user message). -/
theorem submitTurn_failure_appends_error_turn (s : ChatView.ViewState)
    (detail : Option String) (uid aid : String) (t1 t2 : Nat)
    (h1 : jsTrim s.inputMessage ≠ "") (h2 : s.selectedModel ≠ "") :
    (ChatView.sendMessage s (.error detail) uid aid t1 t2).messages
      = s.messages ++ [ChatView.mkUserMsg s uid t1, ChatView.mkErrMsg detail aid t2]
    ∧ ChatView.activeThread (ChatView.sendMessage s (.error detail) uid aid t1 t2)
      = ChatView.activeThread s
          ++ [ChatView.mkUserMsg s uid t1, ChatView.mkErrMsg detail aid t2]
    ∧ (ChatView.activeThread (ChatView.sendMessage s (.error detail) uid aid t1 t2)).length
      = (ChatView.activeThread s).length + 2
    ∧ (ChatView.mkUserMsg s uid t1).role = .user
    ∧ (ChatView.mkUserMsg s uid t1).is_active = some true
    ∧ (ChatView.mkErrMsg detail aid t2).role = .assistant
    ∧ (ChatView.mkErrMsg detail aid t2).is_active = some true
    ∧ (ChatView.mkErrMsg detail aid t2).content = "[ERROR] " ++ jsOr detail "Failed" := by
  have hmsg : (ChatView.sendMessage s (.error detail) uid aid t1 t2).messages
      = s.messages ++ [ChatView.mkUserMsg s uid t1, ChatView.mkErrMsg detail aid t2] := by
    unfold ChatView.sendMessage
    rw [if_neg (by simp [h1, h2])]
    simp
  have hthread : ChatView.activeThread (ChatView.sendMessage s (.error detail) uid aid t1 t2)
      = ChatView.activeThread s
          ++ [ChatView.mkUserMsg s uid t1, ChatView.mkErrMsg detail aid t2] := by
    unfold ChatView.activeThread
    rw [hmsg, List.filter_append]
    simp [ChatView.mkUserMsg, ChatView.mkErrMsg]
  refine ⟨hmsg, hthread, ?_, rfl, rfl, rfl, rfl, rfl⟩
  rw [hthread]
  simp

/-- C3 witness: at the concrete state `Fix.viewSt` (non-empty input,
model selected) a failing call grows the active thread by exactly 2. -/
theorem submitTurn_failure_witness :
    (ChatView.activeThread
        (ChatView.sendMessage Fix.viewSt (.error (some "ProviderUnavailable")) "u2" "a9" 5 6)).length
      = (ChatView.activeThread Fix.viewSt).length + 2
    ∧ (ChatView.mkErrMsg (some "ProviderUnavailable") "a9" 6).content
      = "[ERROR] ProviderUnavailable" := by
  obtain ⟨-, -, h3, -, -, -, -, h8⟩ :=
    submitTurn_failure_appends_error_turn Fix.viewSt (some "ProviderUnavailable")
      "u2" "a9" 5 6 (by decide) (by decide)
  exact ⟨h3, by rw [h8]; rfl⟩

/-! ## C1: selecting a variant commits it and branches the thread -/

theorem setInactiveFirst_append_left (l r : List ChatView.Message) (i : String)
    (h : ∃ m ∈ l, m.id = i) :
    ChatView.setInactiveFirst (l ++ r) i = ChatView.setInactiveFirst l i ++ r := by
  induction l with
  | nil => obtain ⟨m, hm, -⟩ := h; cases hm
  | cons x rest ih =>
    by_cases hx : x.id = i
    · simp [ChatView.setInactiveFirst, hx]
    · obtain ⟨m, hm, hmi⟩ := h
      have hmem : m ∈ rest := by
        cases hm with
        | head => exact absurd hmi hx
        | tail _ h' => exact h'
      simp [ChatView.setInactiveFirst, hx, ih ⟨m, hmem, hmi⟩]

theorem setInactiveFirst_deactivates (l : List ChatView.Message) (i : String)
    (hnodup : (l.map ChatView.Message.id).Nodup) :
    ∀ m' ∈ ChatView.setInactiveFirst l i, m'.id = i → m'.is_active = some false := by
  induction l with
  | nil => intro m' hm'; cases hm'
  | cons x rest ih =>
    intro m' hm' hid
    by_cases hx : x.id = i
    · simp only [ChatView.setInactiveFirst, if_pos hx] at hm'
      cases hm' with
      | head => rfl
      | tail _ h' =>
        exfalso
        have : i ∈ rest.map ChatView.Message.id := List.mem_map.mpr ⟨m', h', hid⟩
        rw [← hx] at this
        exact (List.nodup_cons.mp hnodup).1 this
    · simp only [ChatView.setInactiveFirst, if_neg hx] at hm'
      cases hm' with
      | head => exact absurd hid hx
      | tail _ h' => exact ih (List.nodup_cons.mp hnodup).2 m' h' hid

theorem filter_ne_filter_eq_nil (vs : List ChatView.Variant) (i : String) :
    (vs.filter (fun v => v.original_message_id ≠ i)).filter
      (fun v => v.original_message_id = i) = [] := by
  induction vs with
  | nil => rfl
  | cons v rest ih =>
    by_cases hv : v.original_message_id = i
    · simp [List.filter, hv, ih]
    · simp [List.filter, hv, ih]

/-- C1: with an active assistant message `m` in the conversation (ids
distinct, `m.id` non-empty) and a variant `v` for it in the pool, a
successful `selectVariant(v.id, m.id)` — the backend committing the
variant per the spec — appends a new active assistant message carrying
exactly the variant's content, provider and model, deactivates `m`, and
leaves the variant pool for `m.id` empty; the deactivation is applied to
the list that already holds the appended message, i.e. the append
happens before `m` is deactivated. -/
theorem selectVariant_commits (s : ChatView.ViewState) (m : ChatView.Message)
    (v : ChatView.Variant) (newId : String) (ts : Nat)
    (hm : m ∈ s.messages)
    (hnodup : (s.messages.map ChatView.Message.id).Nodup)
    (hid : m.id ≠ "")
    (hact : m.is_active = some true)
    (hrole : m.role = .assistant)
    (hv : v ∈ s.variants)
    (hvm : v.original_message_id = m.id)
    (hfresh : newId ≠ m.id) :
    ((ChatView.selectVariant s v.id m.id
        (.ok (ChatView.selectVariantBackend v m.id newId ts))).1).messages
      = ChatView.setInactiveFirst (s.messages ++ [ChatView.committedMessage v newId ts]) m.id
    ∧ ((ChatView.selectVariant s v.id m.id
        (.ok (ChatView.selectVariantBackend v m.id newId ts))).1).messages
      = ChatView.setInactiveFirst s.messages m.id ++ [ChatView.committedMessage v newId ts]
    ∧ (ChatView.committedMessage v newId ts).content = v.content
    ∧ (ChatView.committedMessage v newId ts).provider = some v.provider
    ∧ (ChatView.committedMessage v newId ts).model = some v.model
    ∧ (ChatView.committedMessage v newId ts).role = .assistant
    ∧ (ChatView.committedMessage v newId ts).is_active = some true
    ∧ (∀ m' ∈ ((ChatView.selectVariant s v.id m.id
          (.ok (ChatView.selectVariantBackend v m.id newId ts))).1).messages,
        m'.id = m.id → m'.is_active = some false)
    ∧ ChatView.getVariants
        ((ChatView.selectVariant s v.id m.id
          (.ok (ChatView.selectVariantBackend v m.id newId ts))).1) m.id = []
    ∧ m ∈ s.messages ++ [ChatView.committedMessage v newId ts] := by
  have hmsgs : ((ChatView.selectVariant s v.id m.id
        (.ok (ChatView.selectVariantBackend v m.id newId ts))).1).messages
      = ChatView.setInactiveFirst (s.messages ++ [ChatView.committedMessage v newId ts]) m.id := by
    simp only [ChatView.selectVariant, ChatView.selectVariantBackend,
      ChatView.committedMessage, strTruthy_of_ne _ hid]
  have hsplit : ChatView.setInactiveFirst
        (s.messages ++ [ChatView.committedMessage v newId ts]) m.id
      = ChatView.setInactiveFirst s.messages m.id ++ [ChatView.committedMessage v newId ts] :=
    setInactiveFirst_append_left _ _ _ ⟨m, hm, rfl⟩
  have hvars : ((ChatView.selectVariant s v.id m.id
        (.ok (ChatView.selectVariantBackend v m.id newId ts))).1).variants
      = s.variants.filter (fun x => x.original_message_id ≠ m.id) := by
    simp only [ChatView.selectVariant, ChatView.selectVariantBackend,
      strTruthy_of_ne _ hid]
  refine ⟨hmsgs, by rw [hmsgs, hsplit], rfl, rfl, rfl, rfl, rfl, ?_, ?_, ?_⟩
  · intro m' hm' hid'
    rw [hmsgs, hsplit] at hm'
    rcases List.mem_append.mp hm' with h | h
    · exact setInactiveFirst_deactivates s.messages m.id hnodup m' h hid'
    · cases h with
      | head => exact absurd hid' (by simp [ChatView.committedMessage, ChatView.payloadMessage, hfresh])
      | tail _ h2 => cases h2
  · unfold ChatView.getVariants
    rw [hvars]
    exact filter_ne_filter_eq_nil s.variants m.id
  · exact List.mem_append_left _ hm

/-- C1 witness: committing the concrete variant `Fix.v1` over
`Fix.viewSt` appends the committed message after deactivating `a1` and
empties the pool for `a1`. -/
theorem selectVariant_commits_witness :
    ((ChatView.selectVariant Fix.viewSt Fix.v1.id Fix.a1.id
        (.ok (ChatView.selectVariantBackend Fix.v1 Fix.a1.id "a2" 7))).1).messages
      = ChatView.setInactiveFirst Fix.viewSt.messages Fix.a1.id
          ++ [ChatView.committedMessage Fix.v1 "a2" 7]
    ∧ ChatView.getVariants
        ((ChatView.selectVariant Fix.viewSt Fix.v1.id Fix.a1.id
          (.ok (ChatView.selectVariantBackend Fix.v1 Fix.a1.id "a2" 7))).1) Fix.a1.id = [] := by
  obtain ⟨-, h2, -, -, -, -, -, -, h9, -⟩ :=
    selectVariant_commits Fix.viewSt Fix.a1 Fix.v1 "a2" 7
      (by decide) (by decide) (by decide) (by decide) (by decide)
      (by decide) (by decide) (by decide)
  exact ⟨h2, h9⟩

/-! ## C5: default model selection -/

/-- C5 counterexample: with a selected provider that is available but
exposes no models, `onProviderChange` does not fail — no
`NoModelAvailableError` exists anywhere in the code — it proceeds and
sets the selected model to the empty string; `switchProvider` on the
same catalog silently keeps the stale previous model. -/
theorem default_model_empty_list_cex :
    (ChatView.onProviderChange Fix.emptyModelsSt none).selectedModel = ""
    ∧ ChatView.lookupProvider Fix.emptyModelsSt.providers "ollama"
        = some { available := true, models := [] }
    ∧ (Store.switchProvider { currentModel := "llama3:8b", providers := some Fix.bareCatalog }
        "groq" none).currentModel = "llama3:8b" := by
  refine ⟨rfl, rfl, rfl⟩

/-- C5 amended: when no model is given and the provider's model list is
non-empty, the chosen model is its element at index 0 (in the view, a
stored last-used model for that provider may override this default);
when the model list is empty, no error is raised: `switchProvider`
leaves the current model unchanged and `onProviderChange` proceeds with
the empty string as model id. -/
theorem default_model_selection (s : ChatView.ViewState) (st : Store.StoreState)
    (provider m : String) (ms : List String) (p : ChatView.ProviderInfo)
    (pd : Store.ProviderState) :
    (ChatView.lookupProvider s.providers s.selectedProvider = some p →
      p.available = true → p.models = m :: ms →
      (ChatView.onProviderChange s none).selectedModel = m)
    ∧ (ChatView.lookupProvider s.providers s.selectedProvider = some p →
      p.available = true → p.models = [] →
      (ChatView.onProviderChange s none).selectedModel = "")
    ∧ (Store.providersLookup st.providers provider = some pd → pd.models = m :: ms →
      (Store.switchProvider st provider none).currentModel = m)
    ∧ (Store.providersLookup st.providers provider = some pd → pd.models = [] →
      (Store.switchProvider st provider none).currentModel = st.currentModel) := by
  refine ⟨?_, ?_, ?_, ?_⟩
  · intro hp hav hm
    simp [ChatView.onProviderChange, hp, hav, hm, ChatView.loadLastUsedModel]
  · intro hp hav hm
    simp [ChatView.onProviderChange, hp, hav, hm, ChatView.loadLastUsedModel]
  · intro hp hm
    simp only [Store.switchProvider, strTruthy, hp, hm]
    simp only [List.length_cons, Nat.succ_eq_add_one, Nat.zero_lt_succ, if_pos, List.headD_cons]
    cases hcur : Store.currentSession
        { st with currentProvider := provider, currentModel := m } with
    | none => rfl
    | some cur => rfl
  · intro hp hm
    simp only [Store.switchProvider, strTruthy, hp, hm]
    simp only [List.length_nil, Nat.lt_irrefl, if_neg, Nat.not_lt_zero, ite_false]
    cases hcur : Store.currentSession { st with currentProvider := provider } with
    | none => rfl
    | some cur => rfl

/-- C5 witness: at a provider with models `["llama3:8b", "llama2"]` and
no stored last-used model, the chosen default is index 0; at the
empty-models provider of `Fix.emptyModelsSt`, the view proceeds with
`""`. -/
theorem default_model_selection_witness :
    (ChatView.onProviderChange Fix.modelsSt none).selectedModel = "llama3:8b"
    ∧ (ChatView.onProviderChange Fix.emptyModelsSt none).selectedModel = "" := by
  have h1 := (default_model_selection Fix.modelsSt {} "groq" "llama3:8b" ["llama2"]
      { available := true, models := ["llama3:8b", "llama2"] } ⟨"groq", true, []⟩).1
  have h2 := (default_model_selection Fix.emptyModelsSt {} "groq" "m" []
      { available := true, models := [] } ⟨"groq", true, []⟩).2.1
  exact ⟨h1 rfl rfl rfl, h2 rfl rfl rfl⟩

/-! ## C4: no in-flight serialization of turn submissions -/

/-- C4 counterexample: `Fix.busySt` has a turn in flight
(`isLoading = true`); a second `sendMessage` with non-empty content is
not rejected — no `TurnInProgressError` exists in the code — it runs,
appends its user message and, after its call fails, an error turn: the
current session's message count goes from 0 to 2. -/
theorem second_submit_not_rejected_cex :
    Fix.busySt.isLoading = true
    ∧ (Fix.busySt.sessions.map (fun c => c.messages.length)) = [0]
    ∧ ((Store.sendMessage Fix.busySt "hello" (.error none) "u1" "a1" 5 6).sessions.map
        (fun c => c.messages.length)) = [2]
    ∧ ((Store.sendMessagePre Fix.busySt "hello" "u1" 5).1.sessions.map
        (fun c => c.messages.length)) = [1] := by
  refine ⟨rfl, rfl, by decide, by decide⟩

/-- C4 amended: the store does not serialize turns.  `sendMessage`'s
synchronous phase behaves identically whether or not a prior turn is in
flight (`isLoading` is never consulted), so a concurrent second call
interleaves; the only silent no-ops are empty-after-trim content or a
missing current session, and neither raises an error. -/
theorem second_submit_interleaves (s : Store.StoreState) (content uid : String) (t1 : Nat) :
    ((Store.sendMessagePre { s with isLoading := true } content uid t1).1.sessions
      = (Store.sendMessagePre { s with isLoading := false } content uid t1).1.sessions)
    ∧ ((Store.sendMessagePre { s with isLoading := true } content uid t1).2
      = (Store.sendMessagePre { s with isLoading := false } content uid t1).2)
    ∧ (jsTrim content = "" → Store.sendMessagePre s content uid t1 = (s, false))
    ∧ (Store.currentSession s = none → Store.sendMessagePre s content uid t1 = (s, false)) := by
  refine ⟨?_, ?_, ?_, ?_⟩
  · unfold Store.sendMessagePre
    by_cases h : jsTrim content = ""
    · simp [h]
    · simp only [h, ite_false, if_false, if_neg h]
      have hcs : Store.currentSession { s with isLoading := true }
          = Store.currentSession { s with isLoading := false } := rfl
      rw [hcs]
      cases Store.currentSession { s with isLoading := false } <;> rfl
  · unfold Store.sendMessagePre
    by_cases h : jsTrim content = ""
    · simp [h]
    · simp only [h, ite_false, if_false, if_neg h]
      have hcs : Store.currentSession { s with isLoading := true }
          = Store.currentSession { s with isLoading := false } := rfl
      rw [hcs]
      cases Store.currentSession { s with isLoading := false } <;> rfl
  · intro h
    unfold Store.sendMessagePre
    simp [h]
  · intro h
    unfold Store.sendMessagePre
    by_cases htrim : jsTrim content = ""
    · simp [htrim]
    · simp [htrim, h]

/-- C4 witness: concrete instances of the amended statement — at the
busy state a second call mutates the sessions exactly as an unguarded
one would, and an empty-content call is a silent no-op. -/
theorem second_submit_interleaves_witness :
    ((Store.sendMessagePre { Fix.busySt with isLoading := true } "hello" "u1" 5).1.sessions
      = (Store.sendMessagePre { Fix.busySt with isLoading := false } "hello" "u1" 5).1.sessions)
    ∧ (Store.sendMessagePre Fix.storeSt "   " "u1" 5 = (Fix.storeSt, false)) := by
  refine ⟨(second_submit_interleaves Fix.busySt "hello" "u1" 5).1, ?_⟩
  exact (second_submit_interleaves Fix.storeSt "   " "u1" 5).2.2.1 (by decide)

/-! ## C7: no client-side provider validation -/

/-- C7 counterexample: at `Fix.ghostSt` the current provider `"ghost"`
is not in the catalog (and the only catalog entry is unavailable), yet a
turn submission is not rejected with a `ValidationError` — no such error
exists in the code — and the mutation happens: the user message is
appended by the synchronous phase, and the failing call then appends an
error turn, so the session ends with 2 messages instead of 0. -/
theorem submit_unknown_provider_cex :
    Store.providersLookup Fix.ghostSt.providers Fix.ghostSt.currentProvider = none
    ∧ ((Store.sendMessagePre Fix.ghostSt "hi" "u1" 5).1.sessions.map
        (fun c => c.messages.length)) = [1]
    ∧ ((Store.sendMessage Fix.ghostSt "hi" (.error (some "Provider not available"))
        "u1" "a1" 5 6).sessions.map (fun c => c.messages.length)) = [2] := by
  refine ⟨rfl, by decide, by decide⟩

/-- C7 amended: `sendMessage` performs no provider validation at all:
whatever the catalog holds and whatever `currentProvider` is, a call
with non-empty content and an existing current session proceeds past the
guard and appends its user message before the inference call; no
`ValidationError` is raised (the error field is even cleared). -/
theorem submit_no_provider_validation (s : Store.StoreState) (content uid : String)
    (t1 : Nat) (cur : Store.ChatSession)
    (h1 : jsTrim content ≠ "") (h2 : Store.currentSession s = some cur) :
    (Store.sendMessagePre s content uid t1).2 = true
    ∧ (Store.sendMessagePre s content uid t1).1.sessions
      = Store.updateFirstSession s.sessions cur.id
          (fun c => { c with messages := c.messages ++ [Store.mkStoreUserMsg s content uid t1] })
    ∧ (Store.sendMessagePre s content uid t1).1.error = none := by
  unfold Store.sendMessagePre
  rw [h2]
  simp [h1]

/-- C7 witness: the amended statement at the unknown-provider state
`Fix.ghostSt`. -/
theorem submit_no_provider_validation_witness :
    (Store.sendMessagePre Fix.ghostSt "hi" "u1" 5).2 = true
    ∧ (Store.sendMessagePre Fix.ghostSt "hi" "u1" 5).1.sessions
      = Store.updateFirstSession Fix.ghostSt.sessions Fix.sess1.id
          (fun c => { c with messages := c.messages ++ [Store.mkStoreUserMsg Fix.ghostSt "hi" "u1" 5] }) := by
  obtain ⟨ha, hb, -⟩ :=
    submit_no_provider_validation Fix.ghostSt "hi" "u1" 5 Fix.sess1 (by decide) (by decide)
  exact ⟨ha, hb⟩

/-! ## C8: the persistence round trip truncates to the last 100 messages -/

/-- C8: loading what `saveSessionsToStorage` wrote yields each session
with its message list replaced by `messages.slice(-100)` — the suffix of
at most 100 messages; sessions with at most 100 messages survive the
round trip unchanged, older messages of longer sessions are dropped. -/
theorem storage_roundtrip (s s' : Store.StoreState) :
    (Store.loadSessionsFromStorage s' (some (Store.saveSessionsToStorage s))).sessions
      = s.sessions.map
          (fun c => { c with messages := c.messages.drop (c.messages.length - 100) })
    ∧ (∀ c : Store.ChatSession,
        (c.messages.drop (c.messages.length - 100)) <:+ c.messages)
    ∧ (∀ c : Store.ChatSession,
        (c.messages.drop (c.messages.length - 100)).length = min 100 c.messages.length)
    ∧ (∀ c : Store.ChatSession, c.messages.length ≤ 100 →
        ({ c with messages := c.messages.drop (c.messages.length - 100) }
          : Store.ChatSession) = c) := by
  refine ⟨?_, ?_, ?_, ?_⟩
  · unfold Store.loadSessionsFromStorage Store.saveSessionsToStorage
    by_cases h2 : s.currentProvider = "" <;>
      by_cases h3 : s.currentModel = "" <;>
      simp [h2, h3] <;>
      cases strTruthy s.currentSessionId <;> rfl
  · intro c
    exact List.drop_suffix _ _
  · intro c
    simp only [List.length_drop]
    omega
  · intro c hc
    have : c.messages.length - 100 = 0 := by omega
    rw [this, List.drop_zero]

/-- C8 witness: the concrete store state `Fix.storeSt` (one session, no
messages) round-trips; its session is under the 100-message cap and
survives unchanged. -/
theorem storage_roundtrip_witness :
    (Store.loadSessionsFromStorage {} (some (Store.saveSessionsToStorage Fix.storeSt))).sessions
      = Fix.storeSt.sessions.map
          (fun c => { c with messages := c.messages.drop (c.messages.length - 100) })
    ∧ ({ Fix.sess1 with
          messages := Fix.sess1.messages.drop (Fix.sess1.messages.length - 100) }
        : Store.ChatSession) = Fix.sess1 := by
  obtain ⟨h1, -, -, h4⟩ := storage_roundtrip Fix.storeSt {}
  exact ⟨h1, h4 Fix.sess1 (by decide)⟩

/-! ## C9: currentSessionId always names an existing session -/

theorem updateFirstSession_map_id (l : List Store.ChatSession) (i : String)
    (f : Store.ChatSession → Store.ChatSession) (hf : ∀ c, (f c).id = c.id) :
    (Store.updateFirstSession l i f).map (fun c => c.id) = l.map (fun c => c.id) := by
  induction l with
  | nil => rfl
  | cons c rest ih =>
    by_cases hc : c.id = i
    · simp [Store.updateFirstSession, hc, hf]
    · simp [Store.updateFirstSession, hc, ih]

theorem any_id_eq_of_map_id (l1 l2 : List Store.ChatSession)
    (h : l1.map (fun c => c.id) = l2.map (fun c => c.id)) (j : String) :
    l1.any (fun c => c.id = j) = l2.any (fun c => c.id = j) := by
  induction l1 generalizing l2 with
  | nil =>
    cases l2 with
    | nil => rfl
    | cons d rest2 => simp at h
  | cons c rest ih =>
    cases l2 with
    | nil => simp at h
    | cons d rest2 =>
      simp only [List.map_cons, List.cons.injEq] at h
      obtain ⟨hid, hrest⟩ := h
      simp [List.any_cons, hid, ih rest2 hrest]

theorem removeFirstSession_any (l : List Store.ChatSession) (i j : String)
    (hne : j ≠ i) (h : l.any (fun c => c.id = j) = true) :
    (Store.removeFirstSession l i).any (fun c => c.id = j) = true := by
  induction l with
  | nil => cases h
  | cons c rest ih =>
    by_cases hc : c.id = i
    · rw [Store.removeFirstSession, if_pos hc]
      rcases List.any_eq_true.mp h with ⟨x, hx, hxj⟩
      cases hx with
      | head =>
        exfalso
        exact hne (by rw [← of_decide_eq_true hxj, hc])
      | tail _ h' => exact List.any_eq_true.mpr ⟨x, h', hxj⟩
    · rw [Store.removeFirstSession, if_neg hc]
      rcases List.any_eq_true.mp h with ⟨x, hx, hxj⟩
      cases hx with
      | head => exact List.any_eq_true.mpr ⟨c, List.mem_cons_self _ _, hxj⟩
      | tail _ h' =>
        have hrest : (Store.removeFirstSession rest i).any (fun c => c.id = j) = true :=
          ih (List.any_eq_true.mpr ⟨x, h', hxj⟩)
        rcases List.any_eq_true.mp hrest with ⟨y, hy, hyj⟩
        exact List.any_eq_true.mpr ⟨y, List.mem_cons_of_mem _ hy, hyj⟩

theorem sendMessagePre_ids (s : Store.StoreState) (content uid : String) (t1 : Nat) :
    ((Store.sendMessagePre s content uid t1).1.sessions.map (fun c => c.id)
      = s.sessions.map (fun c => c.id))
    ∧ (Store.sendMessagePre s content uid t1).1.currentSessionId = s.currentSessionId := by
  unfold Store.sendMessagePre
  by_cases h : jsTrim content = ""
  · simp [h]
  · simp only [h, ite_false, if_neg h]
    cases Store.currentSession s with
    | none => exact ⟨rfl, rfl⟩
    | some cur =>
      exact ⟨updateFirstSession_map_id _ _ _ (fun c => rfl), rfl⟩

theorem sendMessageRes_ids (s : Store.StoreState) (content : String)
    (r : Except (Option String) Store.SendApiResponse) (aid : String) (t2 : Nat) :
    ((Store.sendMessageRes s content r aid t2).sessions.map (fun c => c.id)
      = s.sessions.map (fun c => c.id))
    ∧ (Store.sendMessageRes s content r aid t2).currentSessionId = s.currentSessionId := by
  unfold Store.sendMessageRes
  cases Store.currentSession s with
  | none => exact ⟨rfl, rfl⟩
  | some cur =>
    cases r with
    | ok resp =>
      refine ⟨updateFirstSession_map_id _ _ _ (fun c => ?_), rfl⟩
      dsimp only
      split <;> rfl
    | error e =>
      exact ⟨updateFirstSession_map_id _ _ _ (fun c => rfl), rfl⟩

theorem sendMessage_ids (s : Store.StoreState) (content : String)
    (r : Except (Option String) Store.SendApiResponse) (uid aid : String) (t1 t2 : Nat) :
    ((Store.sendMessage s content r uid aid t1 t2).sessions.map (fun c => c.id)
      = s.sessions.map (fun c => c.id))
    ∧ (Store.sendMessage s content r uid aid t1 t2).currentSessionId
      = s.currentSessionId := by
  unfold Store.sendMessage
  by_cases h : (Store.sendMessagePre s content uid t1).2 = true
  · simp only [h, if_true, ite_true]
    obtain ⟨hp1, hp2⟩ := sendMessagePre_ids s content uid t1
    obtain ⟨hr1, hr2⟩ := sendMessageRes_ids (Store.sendMessagePre s content uid t1).1 content r aid t2
    exact ⟨hr1.trans hp1, hr2.trans hp2⟩
  · simp only [h, if_false, ite_false, Bool.not_eq_true] at h ⊢
    simp only [h, Bool.false_eq_true, if_false, ite_false]
    exact sendMessagePre_ids s content uid t1

/-- C9: every chat-store operation — `initialize`, `createNewSession`,
`switchSession`, `deleteSession`, `sendMessage` — preserves (and
`initialize` establishes) the invariant that `currentSessionId` is
either `null` or the id of a session present in `sessions`; deleting the
current session repoints `currentSessionId` to the first remaining
session, or creates a fresh session and points to it when none
remains. -/
theorem currentSessionId_invariant (s : Store.StoreState)
    (hs : Store.sessionIdOk s)
    (provs : Except Unit Store.ProvidersStatus) (saved : Option Store.StoredData)
    (newId sessionId content uid aid : String) (now t1 t2 : Nat)
    (r : Except (Option String) Store.SendApiResponse) :
    Store.sessionIdOk (Store.initStore s provs saved newId now)
    ∧ Store.sessionIdOk (Store.createNewSession s newId now)
    ∧ Store.sessionIdOk (Store.switchSession s sessionId)
    ∧ Store.sessionIdOk (Store.deleteSession s sessionId newId now)
    ∧ Store.sessionIdOk (Store.sendMessage s content r uid aid t1 t2)
    ∧ (s.currentSessionId = some sessionId →
        s.sessions.any (fun c => c.id = sessionId) = true →
        ∀ c rest, Store.removeFirstSession s.sessions sessionId = c :: rest →
          (Store.deleteSession s sessionId newId now).currentSessionId = some c.id)
    ∧ (s.currentSessionId = some sessionId →
        s.sessions.any (fun c => c.id = sessionId) = true →
        Store.removeFirstSession s.sessions sessionId = [] →
          (Store.deleteSession s sessionId newId now).currentSessionId = some newId
          ∧ (Store.deleteSession s sessionId newId now).sessions.map (fun c => c.id)
            = [newId]) := by
  refine ⟨?_, ?_, ?_, ?_, ?_, ?_, ?_⟩
  · -- initStore
    unfold Store.initStore
    by_cases hinit : s.isInitialized = true
    · simp only [hinit, if_true, ite_true]
      exact hs
    · rw [if_neg hinit]
      cases hsess : (Store.loadSessionsFromStorage
          (Store.loadProviders { s with isLoading := true, error := none } provs)
          saved).sessions with
      | nil => simp [hsess, Store.createNewSession, Store.sessionIdOk]
      | cons c rest => simp [hsess, Store.sessionIdOk, List.any_cons]
  · -- createNewSession
    simp [Store.createNewSession, Store.sessionIdOk]
  · -- switchSession
    unfold Store.switchSession
    cases hf : s.sessions.find? (fun c => c.id = sessionId) with
    | none => exact hs
    | some sess =>
      have hmem := List.mem_of_find?_eq_some hf
      have hp : sess.id = sessionId := by simpa using List.find?_some hf
      have hany : s.sessions.any (fun c => c.id = sessionId) = true :=
        List.any_eq_true.mpr ⟨sess, hmem, by simp [hp]⟩
      have e1 : ∀ st : Store.StoreState, st.currentSessionId = some sessionId →
          st.sessions = s.sessions → Store.sessionIdOk st := by
        intro st h1 h2
        unfold Store.sessionIdOk
        rw [h1, h2]
        exact hany
      apply e1 <;> rfl
  · -- deleteSession
    unfold Store.deleteSession
    by_cases hany : s.sessions.any (fun c => c.id = sessionId) = true
    · simp only [hany, if_true, ite_true]
      by_cases hcur : s.currentSessionId = some sessionId
      · rw [if_pos hcur]
        cases hrem : Store.removeFirstSession s.sessions sessionId with
        | nil => simp [hrem, Store.createNewSession, Store.sessionIdOk]
        | cons c rest => simp [hrem, Store.sessionIdOk, List.any_cons]
      · rw [if_neg hcur]
        unfold Store.sessionIdOk at hs ⊢
        cases hj : s.currentSessionId with
        | none => trivial
        | some j =>
          rw [hj] at hs
          have hne : j ≠ sessionId := fun he => hcur (by rw [hj, he])
          exact removeFirstSession_any s.sessions sessionId j hne hs
    · rw [Bool.not_eq_true] at hany
      simp only [hany, Bool.false_eq_true, if_false, ite_false]
      exact hs
  · -- sendMessage
    obtain ⟨h1, h2⟩ := sendMessage_ids s content r uid aid t1 t2
    unfold Store.sessionIdOk at hs ⊢
    rw [h2]
    cases hj : s.currentSessionId with
    | none => trivial
    | some j =>
      rw [hj] at hs
      show ((Store.sendMessage s content r uid aid t1 t2).sessions.any
          fun c => decide (c.id = j)) = true
      rw [any_id_eq_of_map_id _ _ h1 j]
      exact hs
  · -- deleteSession of the current session, others remain
    intro hcur hany c rest hrem
    unfold Store.deleteSession
    rw [if_pos hany, if_pos hcur]
    simp [hrem]
  · -- deleteSession of the current session, none remains
    intro hcur hany hrem
    unfold Store.deleteSession
    rw [if_pos hany, if_pos hcur]
    simp [hrem, Store.createNewSession]

/-- C9 witness: at the concrete state `Fix.storeSt` (one session `s1`,
current) the invariant is preserved by `deleteSession`, and deleting the
current (only) session repoints `currentSessionId` to the freshly
created session. -/
theorem currentSessionId_invariant_witness :
    Store.sessionIdOk (Store.deleteSession Fix.storeSt "s1" "n1" 9)
    ∧ (Store.deleteSession Fix.storeSt "s1" "n1" 9).currentSessionId = some "n1" := by
  obtain ⟨-, -, -, h4, -, -, h7⟩ :=
    currentSessionId_invariant Fix.storeSt (by decide) (.error ()) none
      "n1" "s1" "hello" "u1" "a1" 9 5 6 (.error none)
  exact ⟨h4, (h7 rfl (by decide) (by decide)).1⟩

/-! ## C10: the XOR obfuscation round trip -/

theorem charSextet_sextetChar : ∀ n < 64, Sec.charSextet (Sec.sextetChar n) = n := by
  decide

theorem sextetChar_ne_pad : ∀ n < 64, Sec.sextetChar n ≠ '=' := by
  decide

theorem b64decode_cons (c1 c2 c3 c4 : Char) (rest : List Char) :
    Sec.b64decode (c1 :: c2 :: c3 :: c4 :: rest) =
      if c3 = '=' then [Sec.charSextet c1 * 4 + Sec.charSextet c2 / 16]
      else if c4 = '=' then
        [Sec.charSextet c1 * 4 + Sec.charSextet c2 / 16,
         Sec.charSextet c2 % 16 * 16 + Sec.charSextet c3 / 4]
      else
        (Sec.charSextet c1 * 4 + Sec.charSextet c2 / 16) ::
        (Sec.charSextet c2 % 16 * 16 + Sec.charSextet c3 / 4) ::
        (Sec.charSextet c3 % 4 * 64 + Sec.charSextet c4) :: Sec.b64decode rest := rfl

theorem b64_roundtrip :
    ∀ l : List Nat, (∀ x ∈ l, x ≤ 255) → Sec.b64decode (Sec.b64encode l) = l := by
  intro l
  induction l using Sec.b64encode.induct with
  | case1 => intro _; rfl
  | case2 a =>
    intro h
    have ha : a ≤ 255 := h a (by simp)
    simp only [Sec.b64encode]
    rw [b64decode_cons, if_pos rfl]
    rw [charSextet_sextetChar _ (by omega), charSextet_sextetChar _ (by omega)]
    simp only [List.cons.injEq, and_true]
    omega
  | case3 a b =>
    intro h
    have ha : a ≤ 255 := h a (by simp)
    have hb : b ≤ 255 := h b (by simp)
    simp only [Sec.b64encode]
    rw [b64decode_cons, if_neg (sextetChar_ne_pad _ (by omega)), if_pos rfl]
    rw [charSextet_sextetChar _ (by omega), charSextet_sextetChar _ (by omega),
      charSextet_sextetChar _ (by omega)]
    simp only [List.cons.injEq, and_true]
    omega
  | case4 a b c rest ih =>
    intro h
    have ha : a ≤ 255 := h a (by simp)
    have hb : b ≤ 255 := h b (by simp)
    have hc : c ≤ 255 := h c (by simp)
    have hrest : ∀ x ∈ rest, x ≤ 255 := fun x hx => h x (by simp [hx])
    simp only [Sec.b64encode]
    rw [b64decode_cons, if_neg (sextetChar_ne_pad _ (by omega)),
      if_neg (sextetChar_ne_pad _ (by omega))]
    rw [charSextet_sextetChar _ (by omega), charSextet_sextetChar _ (by omega),
      charSextet_sextetChar _ (by omega), charSextet_sextetChar _ (by omega)]
    rw [ih hrest]
    simp only [List.cons.injEq, and_true]
    exact ⟨by omega, by omega, by omega⟩

theorem b64encode_ne_nil (a : Nat) (l : List Nat) : Sec.b64encode (a :: l) ≠ [] := by
  cases l with
  | nil => simp [Sec.b64encode]
  | cons b l2 =>
    cases l2 <;> simp [Sec.b64encode]

theorem getD_le_of_all (key : List Nat) (hk : ∀ x ∈ key, x ≤ 255) (n : Nat) :
    key.getD n 0 ≤ 255 := by
  by_cases h : n < key.length
  · rw [List.getD_eq_getElem key 0 h]
    exact hk _ (List.getElem_mem h)
  · rw [List.getD_eq_default key 0 (by omega)]
    omega

theorem xorKey_all_le (key data : List Nat) (i : Nat)
    (hd : ∀ x ∈ data, x ≤ 255) (hk : ∀ x ∈ key, x ≤ 255) :
    ∀ x ∈ Sec.xorKey key i data, x ≤ 255 := by
  induction data generalizing i with
  | nil => intro x hx; cases hx
  | cons c rest ih =>
    intro x hx
    rw [Sec.xorKey] at hx
    cases hx with
    | head =>
      have h1 : c < 2 ^ 8 := by have := hd c (by simp); omega
      have h2 : key.getD (i % key.length) 0 < 2 ^ 8 := by
        have := getD_le_of_all key hk (i % key.length); omega
      have := Nat.xor_lt_two_pow h1 h2
      omega
    | tail _ h' =>
      exact ih (i + 1) (fun x hx => hd x (by simp [hx])) x h'

theorem xorKey_involutive (key data : List Nat) (i : Nat) :
    Sec.xorKey key i (Sec.xorKey key i data) = data := by
  induction data generalizing i with
  | nil => rfl
  | cons c rest ih =>
    rw [Sec.xorKey, Sec.xorKey, ih (i + 1), Nat.xor_cancel_right]

theorem xorKey_ne_nil (key : List Nat) (i : Nat) (c : Nat) (rest : List Nat) :
    Sec.xorKey key i (c :: rest) ≠ [] := by
  rw [Sec.xorKey]
  exact List.cons_ne_nil _ _

theorem xor_stays_high (x k : Nat) (hx : 255 < x) (hk : k ≤ 255) : 255 < x ^^^ k := by
  by_contra h
  push_neg at h
  have h1 : x ^^^ k < 2 ^ 8 := by omega
  have h2 : k < 2 ^ 8 := by omega
  have h3 := Nat.xor_lt_two_pow h1 h2
  rw [Nat.xor_cancel_right] at h3
  omega

theorem xorKey_has_high (key data : List Nat) (i x : Nat)
    (hx : x ∈ data) (hhigh : 255 < x) (hk : ∀ y ∈ key, y ≤ 255) :
    ∃ z ∈ Sec.xorKey key i data, 255 < z := by
  induction data generalizing i with
  | nil => cases hx
  | cons c rest ih =>
    cases hx with
    | head =>
      refine ⟨x ^^^ key.getD (i % key.length) 0, ?_, ?_⟩
      · rw [Sec.xorKey]; exact List.mem_cons_self _ _
      · exact xor_stays_high _ _ hhigh (getD_le_of_all key hk _)
    | tail _ h' =>
      obtain ⟨z, hz, hzh⟩ := ih (i + 1) h'
      refine ⟨z, ?_, hzh⟩
      rw [Sec.xorKey]
      exact List.mem_cons_of_mem _ hz

/-- C10 counterexample: the claim constrains only the key's code points.
With `data = [0x20AC]` (the euro sign, one UTF-16 code unit above 255)
and key `"a"` (`[97]`, all code points at most 255), the XORed code unit
exceeds 255, `btoa` throws, the `catch` makes `encryptData` return `''`,
and the round trip yields `''`, not `data`. -/
theorem xor_roundtrip_cex :
    ([8364] : List Nat) ≠ []
    ∧ ([97] : List Nat) ≠ []
    ∧ (∀ k ∈ ([97] : List Nat), k ≤ 255)
    ∧ Sec.encryptData [8364] [97] = []
    ∧ Sec.decryptData (Sec.encryptData [8364] [97]) [97] ≠ [8364] := by
  refine ⟨by decide, by decide, by decide, by decide, by decide⟩

/-- C10 amended: the round trip
`decryptData (encryptData data key) key = data` holds for non-empty
`data` and `key` when BOTH strings' code units are at most 255 (not just
the key's); with empty data or empty key both functions return the empty
string; and whenever `data` holds a code unit above 255 (with a key of
in-range code units), `encryptData` returns the empty string because
`btoa` throws. -/
theorem encrypt_decrypt_roundtrip (data key : List Nat)
    (hd : data ≠ []) (hk : key ≠ [])
    (hda : ∀ x ∈ data, x ≤ 255) (hka : ∀ x ∈ key, x ≤ 255) :
    Sec.decryptData (Sec.encryptData data key) key = data
    ∧ (∀ (d : List Nat) (e : List Char),
        Sec.encryptData [] d = [] ∧ Sec.encryptData d [] = []
        ∧ Sec.decryptData [] d = [] ∧ Sec.decryptData e [] = [])
    ∧ (∀ (d k2 : List Nat) (x : Nat), x ∈ d → 255 < x → (∀ y ∈ k2, y ≤ 255) →
        Sec.encryptData d k2 = []) := by
  refine ⟨?_, ?_, ?_⟩
  · have hxall : ∀ x ∈ Sec.xorKey key 0 data, x ≤ 255 :=
      xorKey_all_le key data 0 hda hka
    have henc : Sec.encryptData data key = Sec.b64encode (Sec.xorKey key 0 data) := by
      unfold Sec.encryptData Sec.btoa
      rw [if_neg (by simp [hd, hk])]
      rw [if_pos (by
        rw [List.all_eq_true]
        intro x hx
        exact decide_eq_true (hxall x hx))]
    have hxne : Sec.xorKey key 0 data ≠ [] := by
      cases data with
      | nil => exact absurd rfl hd
      | cons c rest => exact xorKey_ne_nil key 0 c rest
    have hbne : Sec.b64encode (Sec.xorKey key 0 data) ≠ [] := by
      cases hxk : Sec.xorKey key 0 data with
      | nil => exact absurd hxk hxne
      | cons a l => exact b64encode_ne_nil a l
    rw [henc]
    unfold Sec.decryptData
    rw [if_neg (not_or.mpr ⟨hbne, hk⟩)]
    rw [b64_roundtrip _ hxall, xorKey_involutive]
  · intro d e
    refine ⟨by simp [Sec.encryptData], by simp [Sec.encryptData],
      by simp [Sec.decryptData], by simp [Sec.decryptData]⟩
  · intro d k2 x hx hhigh hk2
    unfold Sec.encryptData
    by_cases hg : d = [] ∨ k2 = []
    · rw [if_pos hg]
    · rw [if_neg hg]
      unfold Sec.btoa
      obtain ⟨z, hz, hzh⟩ := xorKey_has_high k2 d 0 x hx hhigh hk2
      rw [if_neg (by
        rw [List.all_eq_true]
        push_neg
        exact ⟨z, hz, by simp; omega⟩)]

/-- C10 witness: the round trip at `data = "Hi"` (`[72, 105]`) and
`key = "k"` (`[107]`), plus the empty-input clauses. -/
theorem encrypt_decrypt_roundtrip_witness :
    Sec.decryptData (Sec.encryptData [72, 105] [107]) [107] = [72, 105]
    ∧ Sec.encryptData [] [107] = [] := by
  obtain ⟨h1, h2, -⟩ :=
    encrypt_decrypt_roundtrip [72, 105] [107] (by decide) (by decide) (by decide) (by decide)
  exact ⟨h1, (h2 [107] []).1⟩
